import Mathlib

/-!
Verification of the curlens core: the workspace-path resolver (PathCodec,
`curlens/backfill.py`), the content extractor and incremental updater
(`curlens/hooks/session_end.py`), and the summary engine
(`curlens/summarize.py`).

Text is modelled as Lean `String` (a wrapper around `List Char`); Python
string primitives (`split`, `strip`, `lower`, `in`, slicing, `join`) are
embedded as executable functions on the underlying character lists.  The
model covers the ASCII text this program manipulates: `str.lower`,
`str.isalpha` and `str.split()` are embedded with their ASCII behaviour.
-/

namespace Curlens

set_option maxRecDepth 40000

/-- ASCII whitespace recognised by Python `str.split()` / `str.strip()`. -/
def pyIsSpace (c : Char) : Bool :=
  c == ' ' || c == '\t' || c == '\n' || c == '\r' || c == '\x0b' || c == '\x0c'

/-- Python `str.strip()`: drop leading and trailing whitespace. -/
def pyStrip (s : String) : String :=
  ⟨((s.data.dropWhile pyIsSpace).reverse.dropWhile pyIsSpace).reverse⟩

/-- Python `str.lower()` (ASCII). -/
def pyLower (s : String) : String :=
  ⟨s.data.map Char.toLower⟩

/-- Does `needle` occur as a contiguous sublist of the second argument? -/
def containsList (needle : List Char) : List Char → Bool
  | [] => needle.isEmpty
  | c :: t => needle.isPrefixOf (c :: t) || containsList needle t

/-- Python `needle in hay` for strings (substring test). -/
def pyContains (hay needle : String) : Bool :=
  containsList needle.data hay.data

/-- Python `s.startswith(pre)`. -/
def pyStartsWith (s pre : String) : Bool :=
  pre.data.isPrefixOf s.data

/-- Python `s[:n]` (slice of the first `n` characters). -/
def pyTake (n : Nat) (s : String) : String :=
  ⟨s.data.take n⟩

/-- Number of alphabetic characters, as in `sum(1 for c in s if c.isalpha())`. -/
def alphaCount (s : String) : Nat :=
  s.data.countP (fun c => c.isAlpha)

/-- Worker for Python `str.split()`: `acc` is the word currently being read. -/
def wordsGo : List Char → List Char → List (List Char)
  | [], acc => if acc.isEmpty then [] else [acc]
  | c :: t, acc =>
    if pyIsSpace c then
      if acc.isEmpty then wordsGo t [] else acc :: wordsGo t []
    else wordsGo t (acc ++ [c])

/-- Python `text.split()`: maximal whitespace-free runs of `text`. -/
def pyWords (s : String) : List (List Char) :=
  wordsGo s.data []

/-- `word_count` from `curlens/summarize.py`: `len(text.split())`. -/
def wordCount (s : String) : Nat :=
  (pyWords s).length

/-- Python `sep.join` on character lists, for a one-character separator. -/
def joinCharsSep (sep : Char) : List (List Char) → List Char
  | [] => []
  | [w] => w
  | w :: ws => w ++ sep :: joinCharsSep sep ws

/-- Python `" ".join(parts)` on strings. -/
def pyJoinSpace (l : List String) : String :=
  ⟨joinCharsSep ' ' (l.map String.data)⟩

/-- Python `"-".join(parts)` on strings. -/
def joinDash (parts : List String) : String :=
  ⟨joinCharsSep '-' (parts.map String.data)⟩

/-- Index of the first occurrence of `needle` in the second argument. -/
def findSubIdx (needle : List Char) : List Char → Option Nat
  | [] => if needle.isEmpty then some 0 else none
  | c :: t =>
    if needle.isPrefixOf (c :: t) then some 0
    else (findSubIdx needle t).map (· + 1)

/-- The suffix strictly after the last occurrence of `sep`; `none` when `sep`
does not occur.  For a separator that cannot overlap itself (such as a
closing tag) this is exactly `text.split(sep)[-1]` in Python, and the
occurrence test matches `len(text.split(sep)) > 1`. -/
def afterLastSub (sep : List Char) : List Char → Option (List Char)
  | [] => if sep.isEmpty then some [] else none
  | c :: t =>
    match afterLastSub sep t with
    | some r => some r
    | none => if sep.isPrefixOf (c :: t) then some ((c :: t).drop sep.length) else none

/-- Worker for Python `s.split(sep)` with a one-character separator. -/
def splitCharGo (sep : Char) (acc : List Char) : List Char → List (List Char)
  | [] => [acc]
  | c :: t => if c == sep then acc :: splitCharGo sep [] t else splitCharGo sep (acc ++ [c]) t

/-- Python `folder_name.split("-")`. -/
def pySplitDash (s : String) : List String :=
  (splitCharGo '-' [] s.data).map (fun l => ⟨l⟩)

/-- Python `folder_name.replace("-", "/")` (one-character needle). -/
def replaceDashes (s : String) : String :=
  ⟨s.data.map (fun c => if c == '-' then '/' else c)⟩

/-!
## PathCodec (`curlens/backfill.py`)

`_build_path_segments` is recursive in Python; the recursion always acts on a
strict suffix of `remaining_parts`, so the embedding carries an explicit fuel
argument that `_resolve_folder_name_to_path` instantiates with more than the
recursion depth ever needs.  The filesystem is abstracted by the
directory-existence oracle `isdir : String → Bool` (`os.path.isdir`), the only
filesystem primitive the source uses.  `os.path.join(base, segment)` is
`base ++ "/" ++ segment` for the absolute, slash-free-tail bases that occur
here.
-/

/-- The candidate-length loop of `_build_path_segments`
(`curlens/backfill.py`, lines 79-89).  The committed parts of the current
segment are `acc`; the not-yet-consumed parts are the last argument.  Trying
`i = acc.length` then `i+1, i+2, …` is exactly the Python
`for i in range(1, len(remaining_parts) + 1)` loop: test
`base/segment`, on success either finish (nothing left) or recurse via
`recur` on the leftover parts, and on failure of either step extend the
segment by one more part (backtracking, shortest segment first). -/
def bpsGo (isdir : String → Bool) (recur : String → List String → Option String)
    (base : String) : List String → List String → Option String
  | acc, [] =>
    let candidate := base ++ "/" ++ joinDash acc
    if isdir candidate then some candidate else none
  | acc, q :: l2 =>
    let candidate := base ++ "/" ++ joinDash acc
    if isdir candidate then
      match recur candidate (q :: l2) with
      | some r => some r
      | none => bpsGo isdir recur base (acc ++ [q]) l2
    else bpsGo isdir recur base (acc ++ [q]) l2

/-- `_build_path_segments(base, remaining_parts)` from `curlens/backfill.py`
(lines 74-91), with fuel bounding the recursion depth (the depth is at most
the number of remaining parts, since every recursive call drops at least one
part). -/
def buildPathSegments (isdir : String → Bool) : Nat → String → List String → Option String
  | 0, _, _ => none
  | _ + 1, base, [] => if isdir base then some base else none
  | fuel + 1, base, p :: rest => bpsGo isdir (buildPathSegments isdir fuel) base [p] rest

/-- `_resolve_folder_name_to_path(folder_name)` from `curlens/backfill.py`
(lines 48-71): fast path replaces every `-` by `/`; otherwise split on `-`
and run the backtracking segment search anchored at `/Users`. -/
def resolveFolderNameToPath (isdir : String → Bool) (folderName : String) : Option String :=
  let simplePath := "/" ++ replaceDashes folderName
  if isdir simplePath then some simplePath
  else
    match pySplitDash folderName with
    | [] => none
    | p :: rest =>
      if p == "Users" && !rest.isEmpty then
        buildPathSegments isdir (rest.length + 1) "/Users" rest
      else none

/-!
## ContentExtractor (`curlens/hooks/session_end.py`)

Blob payloads are the JSON documents returned by `list_json_blobs`.  The
shapes the extractor distinguishes are: a non-dict payload, and a dict with
optional `role` (a string, possibly empty) and optional `content` (a plain
string, a list of typed parts, or any other JSON value).  A part is either a
dict — with its `type` and `text` fields read via `get(..., "")` defaults —
or a non-dict item, which the source skips.  Any non-string, non-list
`content` yields empty extracted text and is dropped at the length screen,
so its Python truthiness is irrelevant; it is modelled as truthy.
-/

/-- A single element of a list-shaped `content`. -/
inductive PartVal where
  | obj (ptype : String) (ptext : String)
  | notDict
deriving DecidableEq

/-- The `content` field of a blob payload. -/
inductive ContentVal where
  | str (s : String)
  | list (l : List PartVal)
  | other
deriving DecidableEq

/-- A dict-shaped blob payload: its `role` and `content` fields. -/
structure Payload where
  role : Option String
  content : Option ContentVal
deriving DecidableEq

/-- A parsed blob document, which may fail the `isinstance(blob_data, dict)` check. -/
inductive BlobData where
  | dict (p : Payload)
  | notDict
deriving DecidableEq

/-- An extracted message `{"role": ..., "content": ...}`. -/
structure Msg where
  role : String
  content : String
deriving DecidableEq

/-- Python truthiness of a `content` value: `""` and `[]` are falsy. -/
def contentTruthy : ContentVal → Bool
  | .str s => !(s == "")
  | .list l => !l.isEmpty
  | .other => true

/-- The per-item step of `_extract_text_content`: skip non-dict items and
`reasoning` parts, keep the `text` of `text`-typed parts. -/
def partText : PartVal → Option String
  | .notDict => none
  | .obj ptype ptext =>
    if ptype == "reasoning" then none
    else if ptype == "text" then some ptext
    else none

/-- `_extract_text_content` from `curlens/hooks/session_end.py` (lines 227-244). -/
def extractTextContent : ContentVal → String
  | .str s => s
  | .list l => pyJoinSpace (l.filterMap partText)
  | .other => ""

/-- The regex `<user_query>\s*(.*?)\s*</user_query>` with `re.DOTALL`:
the span between the first opening tag and the first closing tag after it
(whitespace trimming is applied by the caller via `strip`, subsuming the
`\s*` groups). -/
def findUserQuerySpan (text : String) : Option String :=
  match findSubIdx "<user_query>".data text.data with
  | none => none
  | some i =>
    let after := text.data.drop (i + "<user_query>".length)
    match findSubIdx "</user_query>".data after with
    | none => none
    | some j => some ⟨after.take j⟩

/-- The metadata wrapper tags of `_extract_user_query`. -/
def metadataTags : List String :=
  ["<user_info>", "<rules>", "<system_reminder>", "<always_applied"]

/-- `_extract_user_query` from `curlens/hooks/session_end.py` (lines 247-271). -/
def extractUserQuery (text : String) : String :=
  match findUserQuerySpan text with
  | some inner => pyStrip inner
  | none =>
    if metadataTags.any (fun tag => pyStartsWith (pyStrip text) tag) then ""
    else if pyContains text "<system_reminder>" then
      match afterLastSub "</system_reminder>".data text.data with
      | some rest =>
        let remaining := pyStrip ⟨rest⟩
        if remaining == "" then "" else remaining
      | none => text
    else text

/-- The boilerplate banner phrases of `_is_mostly_metadata`. -/
def metadataIndicators : List String :=
  ["You are gpt-", "You are claude-", "You are running as",
   "interactive CLI coding agent", "Plan mode is active"]

/-- `_is_mostly_metadata` from `curlens/hooks/session_end.py` (lines 205-224). -/
def isMostlyMetadata (text : String) : Bool :=
  if 500 < text.data.length then false
  else metadataIndicators.any (fun ind => pyContains (pyLower text) (pyLower ind))

/-- The tail of the per-blob pipeline: the metadata screen and the final
`{"role": role, "content": text[:2000]}` record. -/
def msgOfText (role0 : String) (t : String) : Option Msg :=
  if isMostlyMetadata t then none else some ⟨role0, pyTake 2000 t⟩

/-- The loop body of `_extract_messages` (lines 170-200): what one blob
contributes, `none` when the blob is dropped. -/
def processBlob : BlobData → Option Msg
  | .notDict => none
  | .dict p =>
    match p.role, p.content with
    | some role0, some c =>
      if role0 == "" then none
      else if !contentTruthy c then none
      else if role0 == "system" then none
      else
        let text := extractTextContent c
        if text == "" || (pyStrip text).data.length < 10 then none
        else if role0 == "user" then
          let uq := extractUserQuery text
          if uq == "" || (pyStrip uq).data.length < 10 then none
          else msgOfText role0 uq
        else msgOfText role0 text
    | _, _ => none

/-- `_extract_messages` from `curlens/hooks/session_end.py` (lines 167-202). -/
def extractMessages : List (String × BlobData) → List Msg
  | [] => []
  | (_, b) :: rest =>
    match processBlob b with
    | some m => m :: extractMessages rest
    | none => extractMessages rest

/-!
## SummaryEngine (`curlens/summarize.py`)

`json.dumps` on a `{"role": ..., "content": ...}` dict is embedded with
Python's default separators and `ensure_ascii=True` escaping; insertion
order puts `role` before `content`.
-/

/-- `truncate_to_words` from `curlens/summarize.py` (lines 15-20). -/
def truncateToWords (text : String) (maxWords : Nat) : String :=
  let words := pyWords text
  if words.length ≤ maxWords then text
  else ⟨joinCharsSep ' ' (words.take maxWords) ++ "...".data⟩

/-- Lowercase hexadecimal digit. -/
def hexDigit (n : Nat) : Char :=
  if n < 10 then Char.ofNat (48 + n) else Char.ofNat (87 + n)

/-- Four lowercase hex digits of a code unit. -/
def hex4 (n : Nat) : List Char :=
  [hexDigit (n / 4096 % 16), hexDigit (n / 256 % 16), hexDigit (n / 16 % 16), hexDigit (n % 16)]

/-- Python `json.dumps` escaping of one character (`ensure_ascii=True`). -/
def jsonEscapeChar (c : Char) : List Char :=
  if c == '"' then ['\\', '"']
  else if c == '\\' then ['\\', '\\']
  else if c == '\n' then ['\\', 'n']
  else if c == '\t' then ['\\', 't']
  else if c == '\r' then ['\\', 'r']
  else if c == '\x08' then ['\\', 'b']
  else if c == '\x0c' then ['\\', 'f']
  else if c.toNat < 32 then '\\' :: 'u' :: hex4 c.toNat
  else if c.toNat < 128 then [c]
  else if c.toNat < 65536 then '\\' :: 'u' :: hex4 c.toNat
  else
    ('\\' :: 'u' :: hex4 (55296 + (c.toNat - 65536) / 1024)) ++
      ('\\' :: 'u' :: hex4 (56320 + (c.toNat - 65536) % 1024))

/-- A JSON string literal for `s`. -/
def jsonQuote (s : String) : String :=
  ⟨'"' :: (s.data.map jsonEscapeChar).flatten ++ ['"']⟩

/-- Python `json.dumps({"role": r, "content": c})` (default separators). -/
def jsonDumpsMsg (m : Msg) : String :=
  "\x7b\"role\": " ++ jsonQuote m.role ++ ", \"content\": " ++ jsonQuote m.content ++ "\x7d"

/-- One list element of `json.dumps(msgs, indent=2)`. -/
def jsonIndentItem (m : Msg) : String :=
  "  \x7b\n    \"role\": " ++ jsonQuote m.role ++ ",\n    \"content\": " ++ jsonQuote m.content ++ "\n  \x7d"

/-- Comma-newline joined items of `json.dumps(msgs, indent=2)`. -/
def joinIndentItems : List Msg → String
  | [] => ""
  | [m] => jsonIndentItem m
  | m :: rest => jsonIndentItem m ++ ",\n" ++ joinIndentItems rest

/-- Python `json.dumps(msgs, indent=2)` for a list of message dicts. -/
def jsonDumpsIndent2 (msgs : List Msg) : String :=
  match msgs with
  | [] => "[]"
  | _ => "[\n" ++ joinIndentItems msgs ++ "\n]"

/-- The accumulation loop of `_trim_json_messages` (lines 62-75): `total` is
the running character total of the messages already kept. -/
def trimGo (maxChars : Nat) : Nat → List Msg → List Msg
  | _, [] => []
  | total, msg :: rest =>
    let msgStr := jsonDumpsMsg msg
    if maxChars < total + msgStr.data.length then
      if msg.content != "" && 200 < msg.content.data.length then
        [⟨msg.role, pyTake 200 msg.content ++ "... [trimmed]"⟩]
      else []
    else msg :: trimGo maxChars (total + msgStr.data.length) rest

/-- `_trim_json_messages` from `curlens/summarize.py` (lines 60-75). -/
def trimJsonMessages (messages : List Msg) (maxChars : Nat) : List Msg :=
  trimGo maxChars 0 messages

/-- Fixed text of the fresh-shape prompt before the word limit. -/
def freshTemplateA : String := "Summarize this coding chat in "

/-- Fixed text of the fresh-shape prompt between the word limit and the messages JSON. -/
def freshTemplateB : String :=
  " words or less.\n\nFOCUS ON:\n- The specific task/problem the user wanted to solve\n- Technologies, frameworks, or files involved\n- Key outcomes or solutions implemented\n\nDO NOT INCLUDE:\n- Model names (gpt-5, claude, grok, etc.)\n- System setup information\n- Generic phrases like \"user initiated a chat\"\n\nIf the conversation has no meaningful coding task, respond with just: \"No actionable content\"\n\nOutput ONLY the summary, nothing else.\n\nMessages:\n"

/-- Fixed text of the update-shape prompt before the word limit. -/
def updateTemplateA : String := "Update this chat summary with new messages. Max "

/-- Fixed text of the update-shape prompt between the word limit and the existing summary. -/
def updateTemplateB : String := " words.\n\nEXISTING SUMMARY:\n"

/-- Fixed text of the update-shape prompt between the existing summary and the messages JSON. -/
def updateTemplateC : String := "\n\nNEW MESSAGES:\n"

/-- Fixed text of the update-shape prompt after the messages JSON. -/
def updateTemplateD : String :=
  "\n\nCreate an updated summary incorporating the new content. Focus on tasks, technologies, and outcomes.\nOutput ONLY the updated summary."

/-- `build_summary_prompt` from `curlens/summarize.py` (lines 23-57).  The
update shape is chosen by `if existing_summary:` — only a present, non-empty
prior summary selects it. -/
def buildSummaryPrompt (messages : List Msg) (maxWords : Nat)
    (existingSummary : Option String) : String :=
  let messagesJson := jsonDumpsIndent2 (trimJsonMessages messages 6000)
  match existingSummary with
  | some es =>
    if es != "" then
      updateTemplateA ++ toString maxWords ++ updateTemplateB ++ es ++ updateTemplateC
        ++ messagesJson ++ updateTemplateD
    else freshTemplateA ++ toString maxWords ++ freshTemplateB ++ messagesJson
  | none => freshTemplateA ++ toString maxWords ++ freshTemplateB ++ messagesJson

/-- `generate_summary` from `curlens/summarize.py` (lines 99-115).
`run_agent` (the `cursor agent -p` subprocess) is the opaque completion
boundary, passed in as `agent`; the `model` and timeout arguments of the
source only parametrise that external call. -/
def generateSummary (agent : String → Option String) (messages : List Msg)
    (maxWords : Nat) (existingSummary : Option String) : Option String :=
  if messages.isEmpty then none
  else
    match agent (buildSummaryPrompt messages maxWords existingSummary) with
    | none => none
    | some s =>
      if s != "" && maxWords < wordCount s then some (truncateToWords s maxWords)
      else some s

/-- The prompts `generate_summary` passes to the completion boundary: none
when `messages` is empty (it returns before calling `run_agent`), otherwise
exactly one. -/
def generateSummaryCalls (messages : List Msg) (maxWords : Nat)
    (existingSummary : Option String) : List String :=
  if messages.isEmpty then [] else [buildSummaryPrompt messages maxWords existingSummary]

/-- The no-task boilerplate phrases of `is_summary_actionable` (already lowercase). -/
def rejectPhrases : List String :=
  ["no actionable content", "no specific coding task", "no meaningful",
   "user initiated a chat", "user started a chat", "testing", "just saying",
   "no specific task", "empty conversation"]

/-- `is_summary_actionable` from `curlens/summarize.py` (lines 118-150), on
the optional result of `generate_summary`. -/
def isSummaryActionable : Option String → Bool
  | none => false
  | some s =>
    if s == "" then false
    else if wordCount s < 10 then false
    else if alphaCount s < 50 then false
    else !(rejectPhrases.any (fun p => pyContains (pyLower s) p))

/-- The prompt-boilerplate markers of `is_curlens_meta_chat`. -/
def metaIndicators : List String :=
  ["Summarize this coding chat in", "Update this chat summary with new messages",
   "rank these chat summaries", "Output ONLY the summary", "No actionable content"]

/-- `is_curlens_meta_chat` from `curlens/summarize.py` (lines 184-204). -/
def isCurlensMetaChat (content : String) : Bool :=
  metaIndicators.any (fun ind => pyContains (pyLower content) (pyLower ind))

/-- The `total_content` accumulation of `has_meaningful_messages`: string
contents concatenated in order. -/
def concatContents (messages : List Msg) : String :=
  messages.foldl (fun acc m => acc ++ m.content) ""

/-- `has_meaningful_messages` from `curlens/summarize.py` (lines 153-181). -/
def hasMeaningfulMessages (messages : List Msg) : Bool :=
  if messages.isEmpty then false
  else if messages.length < 1 then false
  else
    let total := concatContents messages
    if isCurlensMetaChat total then false
    else if total.data.length < 100 then false
    else if alphaCount total < 50 then false
    else true

/-!
## IncrementalUpdater (`curlens/hooks/session_end.py`, `main`)

The per-conversation core of `main` (lines 101-160), after the hook-payload
plumbing has produced a conversation id, chat name, workspace directory, the
stored summary state (`get_summary_state`) and the current blob list
(`list_json_blobs`).  Its externally visible effects are the prompts passed
to the completion boundary and the single `upsert_summary` write, captured
as an explicit trace; logging is effect-free for the store and is omitted.
Blob ids are unique within a store (append-only, never reused), so Python's
id sets are modelled as lists with membership tests.
-/

/-- The stored summary state for a conversation, as returned by
`get_summary_state`: the `summary_text` and `blob_ids` fields `main` reads. -/
structure ExistingState where
  summaryText : Option String
  blobIds : List String
deriving DecidableEq

/-- The argument record of an `upsert_summary` call (lines 153-160). -/
structure UpsertArgs where
  conversationId : String
  summaryText : String
  blobIds : List String
  chatName : String
  chatDirectory : Option String
deriving DecidableEq

/-- The effect trace of one updater invocation: completion-call prompts in
order, and the write (if any). -/
structure HookResult where
  calls : List String
  write : Option UpsertArgs
deriving DecidableEq

/-- Lines 131-164 of `main`: the common tail after message extraction — the
emptiness and meaningfulness screens, the single `generate_summary` call,
the actionability screen, and the `upsert_summary` write. -/
def summarizeStep (agent : String → Option String) (maxWords : Nat)
    (conversationId : String) (chatName : String) (chatDirectory : Option String)
    (existingSummary : Option String) (blobIds : List String)
    (messages : List Msg) : HookResult :=
  if messages.isEmpty then ⟨[], none⟩
  else if !hasMeaningfulMessages messages then ⟨[], none⟩
  else
    let summary := generateSummary agent messages maxWords existingSummary
    let calls := generateSummaryCalls messages maxWords existingSummary
    if isSummaryActionable summary then
      ⟨calls, some ⟨conversationId, summary.getD "", blobIds, chatName, chatDirectory⟩⟩
    else ⟨calls, none⟩

/-- `new_blob_ids = current_ids - existing_ids` (lines 110-112): the current
blob ids not yet covered by the stored record.  Ids are unique, so the set
difference is a filter. -/
def deltaIds (ex : ExistingState) (blobs : List (String × BlobData)) : List String :=
  (blobs.map Prod.fst).filter (fun b => !ex.blobIds.contains b)

/-- `messages = _extract_messages(new_blobs)` for the incremental branch
(lines 125-127): extraction restricted to the delta blobs. -/
def deltaMessages (ex : ExistingState) (blobs : List (String × BlobData)) : List Msg :=
  extractMessages (blobs.filter (fun p => (deltaIds ex blobs).contains p.1))

/-- Lines 101-160 of `main`: the incremental-updater state machine.  With a
stored record, the new-id set `current_ids - existing_ids` decides between
the idempotent no-op and an incremental pass over the delta blobs with the
prior summary text; with no record, a fresh pass over the full blob set. -/
def processConversation (agent : String → Option String) (maxWords : Nat)
    (conversationId : String) (chatName : String) (chatDirectory : Option String)
    (existing : Option ExistingState) (blobs : List (String × BlobData)) : HookResult :=
  let blobIds := blobs.map Prod.fst
  match existing with
  | some ex =>
    if (deltaIds ex blobs).isEmpty then ⟨[], none⟩
    else
      summarizeStep agent maxWords conversationId chatName chatDirectory
        ex.summaryText blobIds (deltaMessages ex blobs)
  | none =>
    summarizeStep agent maxWords conversationId chatName chatDirectory
      none blobIds (extractMessages blobs)

/-- Does a blob carry `role == "system"`?  Used to state that system blobs
never contribute to extraction. -/
def isSystemBlob : BlobData → Bool
  | .dict p => p.role == some "system"
  | .notDict => false

/-- Total serialized length of a message list under `json.dumps`, the
quantity `_trim_json_messages` accumulates. -/
def sumJsonLen (msgs : List Msg) : Nat :=
  (msgs.map (fun m => (jsonDumpsMsg m).data.length)).sum

/-!
## Concrete fixtures used by the per-claim theorems and witnesses
-/

/-- Directory oracle where exactly `/Users/jane/dev/my-app` and its ancestor
directories exist; in particular neither `/Users/jane/dev/my/app` (the fast
path) nor `/Users/jane-dev/my-app` exists. -/
def oracleJane (p : String) : Bool :=
  p == "/Users" || p == "/Users/jane" || p == "/Users/jane/dev" || p == "/Users/jane/dev/my-app"

/-- Oracle accepting both the two-segment reading `/Users/x/y` and the
one-segment reading `/Users/x-y`: the tie-break case. -/
def oracleShort (p : String) : Bool :=
  p == "/Users/x" || p == "/Users/x/y" || p == "/Users/x-y"

/-- Oracle where `/Users/x` exists but `/Users/x/y` does not, while
`/Users/x-y` does: forces one backtrack. -/
def oracleBack (p : String) : Bool :=
  p == "/Users/x" || p == "/Users/x-y"

/-- Oracle for the decode-validates witness. -/
def oracleC3 (p : String) : Bool :=
  p == "/Users/proj"

/-- Stored summary state covering blobs `A` and `B`. -/
def c1Ex : ExistingState :=
  ⟨some "Prior summary of the login bug work in the auth module.", ["A", "B"]⟩

/-- Content of the one new blob `C`. -/
def c1NewText : String :=
  "I refactored the session handling and added a regression test covering the expired token path in the auth module."

/-- Current store: covered blobs `A`, `B` plus new blob `C`. -/
def c1Blobs : List (String × BlobData) :=
  [("A", .dict ⟨some "user", some (.str "<user_query>Fix the login bug in auth.py</user_query>")⟩),
   ("B", .dict ⟨some "assistant", some (.str "Working on the login bug now, checking the hashing code.")⟩),
   ("C", .dict ⟨some "assistant", some (.str c1NewText)⟩)]

/-- Stubbed completion boundary returning an actionable summary. -/
def c1Agent : String → Option String :=
  fun _ => some "Fixed a login bug in auth.py by correcting a password hashing mismatch and adding a regression test."

/-- Stored summary state covering blobs `A` and `B` (no-op scenario). -/
def c2Ex : ExistingState := ⟨some "Stored summary text for this conversation.", ["A", "B"]⟩

/-- Current store whose ids `A`, `B` are all already covered. -/
def c2Blobs : List (String × BlobData) :=
  [("A", .dict ⟨some "user", some (.str "<user_query>Fix the login bug in auth.py</user_query>")⟩),
   ("B", .dict ⟨some "assistant", some (.str "Working on the login bug now, checking the hashing code.")⟩)]

/-- A user text containing a system-reminder closing tag but no opening tag. -/
def c5text : String := "</system_reminder> please fix the login bug in auth.py"

/-- A user text with a user-query span surrounded by junk. -/
def c5spanText : String := "<user_query>  Fix the login bug in auth.py  </user_query>trailing metadata"

/-- A user text whose extraction survives all secondary screens. -/
def c5keptText : String := "blah <system_reminder>noise</system_reminder>  please fix the login bug now "

/-- The accepted 12-word, 80-alphabetic-character summary of the claim. -/
def c7Good : String :=
  "Implemented database migration scripts for the billing service and fixed connection pooling"

/-- First message of the budget-overflow scenario (serializes to 36 chars). -/
def c9m1 : Msg := ⟨"user", "hello"⟩

/-- Second message of the budget-overflow scenario (serializes to 33 chars,
content of only 2 characters). -/
def c9m2 : Msg := ⟨"user", "hi"⟩

/-- A 250-character content, long enough to be boundary-trimmed. -/
def c9Long : Msg := ⟨"assistant", ⟨List.replicate 250 'a'⟩⟩

/-- Messages for the self-summarization witness. -/
def c10Msgs : List Msg := [⟨"user", "hello there friend"⟩]

/-!
## Helper lemmas
-/

theorem containsList_iff (n h : List Char) : containsList n h = true ↔ n <:+: h := by
  induction h with
  | nil => simp [containsList, List.isEmpty_iff, List.infix_nil]
  | cons c t ih =>
    simp [containsList, Bool.or_eq_true, List.isPrefixOf_iff_prefix, ih, List.infix_cons_iff]

theorem pyContains_iff (hay needle : String) :
    pyContains hay needle = true ↔ needle.data <:+: hay.data :=
  containsList_iff needle.data hay.data

theorem pyContains_trans (a b c : String) (h1 : pyContains a b = true)
    (h2 : pyContains b c = true) : pyContains a c = true :=
  (pyContains_iff a c).2 (((pyContains_iff b c).1 h2).trans ((pyContains_iff a b).1 h1))

theorem pyContains_lower (hay needle : String) (h : pyContains hay needle = true) :
    pyContains (pyLower hay) (pyLower needle) = true :=
  (pyContains_iff (pyLower hay) (pyLower needle)).2
    (((pyContains_iff hay needle).1 h).map Char.toLower)

theorem pyContains_refl (s : String) : pyContains s s = true :=
  (pyContains_iff s s).2 (List.infix_refl s.data)

theorem pre_extend (x : List Char) (a b : String) (h : x <+: a.data) :
    x <+: (a ++ b).data :=
  h.trans (List.prefix_append a.data b.data)

theorem pyContains_of_pre (p n : String) (h : n.data <+: p.data) :
    pyContains p n = true :=
  (pyContains_iff p n).2 h.isInfix

/-!
## C3 — PathCodec decode always returns a validated absolute directory
-/

theorem bpsGo_isdir (isdir : String → Bool) (recur : String → List String → Option String)
    (base : String) (hrec : ∀ b l r, recur b l = some r → isdir r = true) :
    ∀ l acc p, bpsGo isdir recur base acc l = some p → isdir p = true := by
  intro l
  induction l with
  | nil =>
    intro acc p h
    simp only [bpsGo] at h
    split at h
    · exact Option.some.inj h ▸ ‹_›
    · exact absurd h (by simp)
  | cons q l2 ih =>
    intro acc p h
    simp only [bpsGo] at h
    split at h
    · rename_i hdir
      cases hr : recur (base ++ "/" ++ joinDash acc) (q :: l2) with
      | some r =>
        rw [hr] at h
        exact Option.some.inj h ▸ hrec _ _ _ hr
      | none =>
        rw [hr] at h
        exact ih _ _ h
    · exact ih _ _ h

theorem buildPathSegments_isdir (isdir : String → Bool) :
    ∀ fuel base l p, buildPathSegments isdir fuel base l = some p → isdir p = true := by
  intro fuel
  induction fuel with
  | zero => intro base l p h; exact absurd h (by simp [buildPathSegments])
  | succ n ih =>
    intro base l p h
    cases l with
    | nil =>
      simp only [buildPathSegments] at h
      split at h
      · exact Option.some.inj h ▸ ‹_›
      · exact absurd h (by simp)
    | cons x rest =>
      simp only [buildPathSegments] at h
      exact bpsGo_isdir isdir _ base (fun b l r hr => ih b l r hr) _ _ _ h

theorem bpsGo_pre (isdir : String → Bool) (recur : String → List String → Option String)
    (base : String) (hrec : ∀ b l r, recur b l = some r → b.data <+: r.data) :
    ∀ l acc p, bpsGo isdir recur base acc l = some p → base.data <+: p.data := by
  intro l
  induction l with
  | nil =>
    intro acc p h
    simp only [bpsGo] at h
    split at h
    · exact Option.some.inj h ▸ pre_extend _ _ _ (pre_extend _ _ _ List.prefix_rfl)
    · exact absurd h (by simp)
  | cons q l2 ih =>
    intro acc p h
    simp only [bpsGo] at h
    split at h
    · cases hr : recur (base ++ "/" ++ joinDash acc) (q :: l2) with
      | some r =>
        rw [hr] at h
        exact Option.some.inj h ▸
          (pre_extend _ _ _ (pre_extend _ _ _ List.prefix_rfl)).trans (hrec _ _ _ hr)
      | none =>
        rw [hr] at h
        exact ih _ _ h
    · exact ih _ _ h

theorem buildPathSegments_pre (isdir : String → Bool) :
    ∀ fuel base l p, buildPathSegments isdir fuel base l = some p → base.data <+: p.data := by
  intro fuel
  induction fuel with
  | zero => intro base l p h; exact absurd h (by simp [buildPathSegments])
  | succ n ih =>
    intro base l p h
    cases l with
    | nil =>
      simp only [buildPathSegments] at h
      split at h
      · exact Option.some.inj h ▸ List.prefix_rfl
      · exact absurd h (by simp)
    | cons x rest =>
      simp only [buildPathSegments] at h
      exact bpsGo_pre isdir _ base (fun b l r hr => ih b l r hr) _ _ _ h

/-- Claim C3: for every folder name and every directory-existence oracle,
PathCodec decode is total (the embedding is a total function) and returns
either `none` (NotFound) or a path that starts with the path-boundary
character and that the oracle confirms is an existing directory; it never
returns an unvalidated path. -/
theorem pathcodec_decode_validated (isdir : String → Bool) (folderName p : String)
    (h : resolveFolderNameToPath isdir folderName = some p) :
    isdir p = true ∧ pyStartsWith p "/" = true := by
  have hfastOf : ∀ q : String, isdir ("/" ++ q) = true → p = "/" ++ q →
      isdir p = true ∧ pyStartsWith p "/" = true := by
    intro q hq hp
    subst hp
    exact ⟨hq, (List.isPrefixOf_iff_prefix).2 (pre_extend _ _ _ List.prefix_rfl)⟩
  have hbuildOf : ∀ fuel rest, buildPathSegments isdir fuel "/Users" rest = some p →
      isdir p = true ∧ pyStartsWith p "/" = true := by
    intro fuel rest hb
    refine ⟨buildPathSegments_isdir isdir _ _ _ _ hb, ?_⟩
    have hpre : ("/Users" : String).data <+: p.data := buildPathSegments_pre isdir _ _ _ _ hb
    exact (List.isPrefixOf_iff_prefix).2 (List.IsPrefix.trans (by decide) hpre)
  simp only [resolveFolderNameToPath] at h
  split at h
  · exact hfastOf _ ‹_› (Option.some.inj h).symm
  · split at h
    · exact absurd h (by simp)
    · split at h
      · exact hbuildOf _ _ h
      · exact absurd h (by simp)

/-- Witness for C3 at a concrete oracle and folder name. -/
theorem pathcodec_decode_validated_witness :
    oracleC3 "/Users/proj" = true ∧ pyStartsWith "/Users/proj" "/" = true :=
  pathcodec_decode_validated oracleC3 "Users-proj" "/Users/proj" (by decide)

/-!
## C4 — PathCodec backtracking order and the `Users-jane-dev-my-app` scenario
-/

/-- Claim C4: the backtracking search tries shorter segments first and
backtracks to longer ones on failure.  Concretely: (1) the folder name
`Users-jane-dev-my-app` resolves to `/Users/jane/dev/my-app` when exactly
that directory chain exists; (2) when both the two-segment reading
`/Users/x/y` and the one-segment reading `/Users/x-y` exist, the
shortest-segment-first order picks `/Users/x/y`; (3) when `/Users/x` exists
but `/Users/x/y` does not, the search backtracks and returns `/Users/x-y`. -/
theorem pathcodec_backtracking_order :
    resolveFolderNameToPath oracleJane "Users-jane-dev-my-app" = some "/Users/jane/dev/my-app" ∧
    buildPathSegments oracleShort 3 "/Users" ["x", "y"] = some "/Users/x/y" ∧
    buildPathSegments oracleBack 3 "/Users" ["x", "y"] = some "/Users/x-y" := by
  refine ⟨by decide, by decide, by decide⟩

/-!
## C6 — system-role blobs contribute nothing
-/

theorem processBlob_system (b : BlobData) (h : isSystemBlob b = true) :
    processBlob b = none := by
  cases b with
  | notDict => simp [isSystemBlob] at h
  | dict p =>
    have hrole : p.role = some "system" := by
      simpa [isSystemBlob] using h
    cases hc : p.content with
    | none => simp [processBlob, hrole, hc]
    | some c =>
      by_cases ht : contentTruthy c = true
      · simp [processBlob, hrole, hc, ht]
      · have hf : contentTruthy c = false := by simpa using ht
        simp [processBlob, hrole, hc, hf]

/-- Claim C6: no blob whose payload has `role == "system"` contributes any
message to the extraction output, whatever its content: deleting all
system-role blobs from the input leaves `_extract_messages` unchanged. -/
theorem extractor_drops_system_blobs (blobs : List (String × BlobData)) :
    extractMessages (blobs.filter (fun pr => !isSystemBlob pr.2)) = extractMessages blobs := by
  induction blobs with
  | nil => rfl
  | cons hd rest ih =>
    obtain ⟨bid, b⟩ := hd
    cases hb : isSystemBlob b with
    | true =>
      simp [List.filter_cons, hb, extractMessages, processBlob_system b hb, ih]
    | false =>
      cases hm : processBlob b with
      | none => simp [List.filter_cons, hb, extractMessages, hm, ih]
      | some m => simp [List.filter_cons, hb, extractMessages, hm, ih]

/-!
## C2 — fully covered conversation is an idempotent no-op
-/

/-- Claim C2: when the stored record's covered ids form a superset of the
current blob ids, the updater makes no completion call and no write, so the
stored record is left untouched. -/
theorem updater_covered_noop (agent : String → Option String) (maxWords : Nat)
    (conversationId chatName : String) (chatDirectory : Option String)
    (ex : ExistingState) (blobs : List (String × BlobData))
    (h : ∀ b ∈ blobs.map Prod.fst, ex.blobIds.contains b = true) :
    processConversation agent maxWords conversationId chatName chatDirectory
      (some ex) blobs = ⟨[], none⟩ := by
  have hempty : deltaIds ex blobs = [] :=
    List.filter_eq_nil_iff.mpr (fun b hb => by simpa using h b hb)
  simp [processConversation, hempty]

/-- Witness for C2: covered ids `{A, B}`, current ids `{A, B}`. -/
theorem updater_covered_noop_witness :
    processConversation (fun _ => none) 70 "conv" "Chat" none (some c2Ex) c2Blobs
      = ⟨[], none⟩ :=
  updater_covered_noop _ _ _ _ _ _ _ (by decide)

/-!
## C1 — incremental pass: one call over the delta, full-coverage write
-/

/-- Claim C1: with a stored record and a non-empty delta, a single
incremental pass extracts messages only from the delta blobs (ids not
previously covered), makes exactly one completion call whose prompt is built
from those delta messages together with the prior summary text, and on an
actionable result writes a record whose covered ids equal the full current
id set — so, the store being append-only (`hmono`), coverage never
shrinks. -/
theorem updater_incremental_single_call (agent : String → Option String) (maxWords : Nat)
    (conversationId chatName : String) (chatDirectory : Option String)
    (ex : ExistingState) (blobs : List (String × BlobData))
    (hdelta : deltaIds ex blobs ≠ [])
    (hmsgs : deltaMessages ex blobs ≠ [])
    (hmean : hasMeaningfulMessages (deltaMessages ex blobs) = true)
    (hact : isSummaryActionable
      (generateSummary agent (deltaMessages ex blobs) maxWords ex.summaryText) = true)
    (hmono : ∀ b ∈ ex.blobIds, b ∈ blobs.map Prod.fst) :
    processConversation agent maxWords conversationId chatName chatDirectory
        (some ex) blobs =
      ⟨[buildSummaryPrompt (deltaMessages ex blobs) maxWords ex.summaryText],
       some ⟨conversationId,
             (generateSummary agent (deltaMessages ex blobs) maxWords ex.summaryText).getD "",
             blobs.map Prod.fst, chatName, chatDirectory⟩⟩ ∧
    ∀ b ∈ ex.blobIds, b ∈ blobs.map Prod.fst := by
  refine ⟨?_, hmono⟩
  have hne : (deltaIds ex blobs).isEmpty = false := by
    simpa [List.isEmpty_iff] using hdelta
  have hmsgs' : (deltaMessages ex blobs).isEmpty = false := by
    simpa [List.isEmpty_iff] using hmsgs
  simp [processConversation, summarizeStep, generateSummaryCalls, hne, hmsgs', hmean, hact]

/-- Witness for C1: covered `{A, B}`, current `{A, B, C}`, stubbed agent. -/
theorem updater_incremental_single_call_witness :
    processConversation c1Agent 70 "conv" "Chat" (some "/w") (some c1Ex) c1Blobs =
      ⟨[buildSummaryPrompt (deltaMessages c1Ex c1Blobs) 70 c1Ex.summaryText],
       some ⟨"conv",
             (generateSummary c1Agent (deltaMessages c1Ex c1Blobs) 70 c1Ex.summaryText).getD "",
             ["A", "B", "C"], "Chat", some "/w"⟩⟩ ∧
    ∀ b ∈ c1Ex.blobIds, b ∈ c1Blobs.map Prod.fst :=
  updater_incremental_single_call c1Agent 70 "conv" "Chat" (some "/w") c1Ex c1Blobs
    (by decide) (by decide) (by decide) (by decide) (by decide)

/-!
## C7 — the actionability screen, exactly characterized
-/

/-- Claim C7: `is_summary_actionable` accepts a text exactly when it is
non-empty, has at least 10 words, has at least 50 alphabetic characters, and
its lower-cased form contains none of the no-task phrases; in particular
`"No actionable content"` is rejected, and the fixed 12-word,
80-alphabetic-character summary is accepted. -/
theorem actionable_screen_iff :
    (∀ s : String, isSummaryActionable (some s) = true ↔
      (s ≠ "" ∧ 10 ≤ wordCount s ∧ 50 ≤ alphaCount s ∧
        ∀ phrase ∈ rejectPhrases, pyContains (pyLower s) phrase = false)) ∧
    isSummaryActionable (some "No actionable content") = false ∧
    (isSummaryActionable (some c7Good) = true ∧
      wordCount c7Good = 12 ∧ alphaCount c7Good = 80) := by
  refine ⟨?_, by decide, by decide, by decide⟩
  intro s
  by_cases h0 : s = ""
  · simp [isSummaryActionable, h0]
  · by_cases h1 : wordCount s < 10
    · simp [isSummaryActionable, h0, h1, Nat.not_le.mpr h1]
    · by_cases h2 : alphaCount s < 50
      · simp [isSummaryActionable, h0, h1, h2, Nat.not_le.mpr h2, Nat.not_lt.mp h1]
      · simp [isSummaryActionable, h0, h1, h2, List.any_eq_false,
          Nat.not_lt.mp h1, Nat.not_lt.mp h2]

/-!
## C10 — the summarization prompt is itself screened out as a meta-chat
-/

/-- Claim C10: every prompt `build_summary_prompt` produces (fresh or update
shape) is classified as a curlens meta-chat by `is_curlens_meta_chat`, and
consequently `has_meaningful_messages` rejects any message list whose
concatenated content contains such a prompt — closing the
self-summarization loop. -/
theorem prompt_is_meta_chat (messages : List Msg) (maxWords : Nat)
    (existingSummary : Option String) :
    isCurlensMetaChat (buildSummaryPrompt messages maxWords existingSummary) = true ∧
    ∀ messages2 : List Msg,
      pyContains (concatContents messages2)
          (buildSummaryPrompt messages maxWords existingSummary) = true →
      hasMeaningfulMessages messages2 = false := by
  have key : ∃ ind, ind ∈ metaIndicators ∧
      pyContains (buildSummaryPrompt messages maxWords existingSummary) ind = true := by
    cases existingSummary with
    | none =>
      refine ⟨"Summarize this coding chat in", by decide, ?_⟩
      simp only [buildSummaryPrompt]
      exact pyContains_of_pre _ _ (pre_extend _ _ _ (pre_extend _ _ _ (pre_extend _ _ _
        (List.isPrefixOf_iff_prefix.mp (by decide)))))
    | some es =>
      by_cases hes : (es != "") = true
      · refine ⟨"Update this chat summary with new messages", by decide, ?_⟩
        simp only [buildSummaryPrompt, if_pos hes]
        exact pyContains_of_pre _ _ (pre_extend _ _ _ (pre_extend _ _ _ (pre_extend _ _ _
          (pre_extend _ _ _ (pre_extend _ _ _ (pre_extend _ _ _
            (List.isPrefixOf_iff_prefix.mp (by decide))))))))
      · refine ⟨"Summarize this coding chat in", by decide, ?_⟩
        simp only [buildSummaryPrompt, if_neg hes]
        exact pyContains_of_pre _ _ (pre_extend _ _ _ (pre_extend _ _ _ (pre_extend _ _ _
          (List.isPrefixOf_iff_prefix.mp (by decide)))))
  obtain ⟨ind, hmem, hc⟩ := key
  constructor
  · exact List.any_eq_true.2 ⟨ind, hmem, pyContains_lower _ _ hc⟩
  · intro messages2 hcont
    have hmeta : isCurlensMetaChat (concatContents messages2) = true :=
      List.any_eq_true.2 ⟨ind, hmem, pyContains_lower _ _ (pyContains_trans _ _ _ hcont hc)⟩
    cases hm : messages2.isEmpty with
    | true => simp [hasMeaningfulMessages, hm]
    | false =>
      have hlen : ¬ messages2.length < 1 := by
        have : messages2 ≠ [] := by simpa [List.isEmpty_iff] using hm
        have := List.length_pos.2 this
        omega
      simp [hasMeaningfulMessages, hm, hlen, hmeta]

/-- Witness for C10: a concrete prompt is meta, and a conversation whose one
message is that prompt fails the meaningfulness screen. -/
theorem prompt_is_meta_chat_witness :
    isCurlensMetaChat (buildSummaryPrompt c10Msgs 70 none) = true ∧
    hasMeaningfulMessages [⟨"user", buildSummaryPrompt c10Msgs 70 none⟩] = false :=
  ⟨(prompt_is_meta_chat c10Msgs 70 none).1,
   (prompt_is_meta_chat c10Msgs 70 none).2 [⟨"user", buildSummaryPrompt c10Msgs 70 none⟩]
     (pyContains_refl _)⟩

/-!
## Word-splitting lemmas for the truncation bound
-/

theorem wordsGo_words_ok : ∀ l acc, (∀ c ∈ acc, pyIsSpace c = false) →
    ∀ w ∈ wordsGo l acc, w ≠ [] ∧ ∀ c ∈ w, pyIsSpace c = false := by
  intro l
  induction l with
  | nil =>
    intro acc hacc w hw
    simp only [wordsGo] at hw
    split at hw
    · simp at hw
    · rename_i hne
      rw [List.mem_singleton] at hw
      subst hw
      exact ⟨by simpa [List.isEmpty_iff] using hne, hacc⟩
  | cons c t ih =>
    intro acc hacc w hw
    simp only [wordsGo] at hw
    split at hw
    · split at hw
      · exact ih [] (by simp) w hw
      · rename_i hne
        rcases List.mem_cons.1 hw with h | h
        · subst h
          exact ⟨by simpa [List.isEmpty_iff] using hne, hacc⟩
        · exact ih [] (by simp) w h
    · rename_i hc
      refine ih (acc ++ [c]) ?_ w hw
      intro x hx
      rcases List.mem_append.1 hx with h | h
      · exact hacc x h
      · rw [List.mem_singleton] at h
        subst h
        simpa using hc

theorem wordsGo_word_chunk : ∀ w, (∀ c ∈ w, pyIsSpace c = false) →
    ∀ r acc, wordsGo (w ++ r) acc = wordsGo r (acc ++ w) := by
  intro w
  induction w with
  | nil => intro _ r acc; simp
  | cons c w2 ih =>
    intro hw r acc
    have hc : pyIsSpace c = false := hw c (List.mem_cons_self _ _)
    have hrec := ih (fun x hx => hw x (List.mem_cons_of_mem _ hx)) r (acc ++ [c])
    calc wordsGo ((c :: w2) ++ r) acc
        = wordsGo (w2 ++ r) (acc ++ [c]) := by simp [List.cons_append, wordsGo, hc]
      _ = wordsGo r ((acc ++ [c]) ++ w2) := hrec
      _ = wordsGo r (acc ++ (c :: w2)) := by rw [List.append_assoc]; rfl

theorem wordsGo_space_cons (r : List Char) (acc : List Char) (h : acc ≠ []) :
    wordsGo (' ' :: r) acc = acc :: wordsGo r [] := by
  have hs : pyIsSpace ' ' = true := by decide
  have hne : acc.isEmpty = false := by simpa [List.isEmpty_iff] using h
  simp [wordsGo, hs, hne]

theorem wordsGo_join (e : List Char) (he : e ≠ []) (hes : ∀ c ∈ e, pyIsSpace c = false) :
    ∀ ws, (∀ w ∈ ws, w ≠ [] ∧ ∀ c ∈ w, pyIsSpace c = false) →
    wordsGo (joinCharsSep ' ' ws ++ e) [] = ws.dropLast ++ [(ws.getLast?.getD []) ++ e] := by
  intro ws
  induction ws with
  | nil =>
    intro _
    have h1 : wordsGo (e ++ []) [] = wordsGo [] ([] ++ e) := wordsGo_word_chunk e hes [] []
    simp only [List.append_nil, List.nil_append] at h1
    have hne : e.isEmpty = false := by simpa [List.isEmpty_iff] using he
    simp [joinCharsSep, h1, wordsGo, hne]
  | cons w ws2 ih =>
    intro hws
    cases ws2 with
    | nil =>
      have hw := hws w (List.mem_cons_self _ _)
      have h1 : wordsGo (w ++ e) [] = wordsGo e w := by
        simpa using wordsGo_word_chunk w hw.2 e []
      have h2 : wordsGo (e ++ []) w = wordsGo [] (w ++ e) := wordsGo_word_chunk e hes [] w
      simp only [List.append_nil] at h2
      have hne : (w ++ e).isEmpty = false := by
        simp [List.isEmpty_iff, he]
      simp [joinCharsSep, h1, h2, wordsGo, hne]
    | cons w2 ws3 =>
      have hw := hws w (List.mem_cons_self _ _)
      have hrest : ∀ x ∈ w2 :: ws3, x ≠ [] ∧ ∀ c ∈ x, pyIsSpace c = false :=
        fun x hx => hws x (List.mem_cons_of_mem _ hx)
      have step1 : joinCharsSep ' ' (w :: w2 :: ws3) ++ e
          = w ++ (' ' :: (joinCharsSep ' ' (w2 :: ws3) ++ e)) := by
        simp [joinCharsSep]
      rw [step1, wordsGo_word_chunk w hw.2 _ [], List.nil_append,
        wordsGo_space_cons _ w hw.1, ih hrest]
      simp

theorem wordCount_truncate (s : String) (maxWords : Nat) (h1 : 1 ≤ maxWords)
    (h2 : maxWords < wordCount s) :
    wordCount (truncateToWords s maxWords) = maxWords := by
  have hlen : ¬ (pyWords s).length ≤ maxWords := Nat.not_le.mpr h2
  have hws : ∀ w ∈ (pyWords s).take maxWords, w ≠ [] ∧ ∀ c ∈ w, pyIsSpace c = false :=
    fun w hw => wordsGo_words_ok s.data [] (by simp) w (List.mem_of_mem_take hw)
  have hjoin := wordsGo_join ("...".data) (by decide) (by decide)
    ((pyWords s).take maxWords) hws
  have htklen : ((pyWords s).take maxWords).length = maxWords := by
    rw [List.length_take]
    omega
  have htkne : (pyWords s).take maxWords ≠ [] := by
    intro hnil
    rw [hnil] at htklen
    simp at htklen
    omega
  simp only [truncateToWords, hlen, if_false]
  show (wordsGo (joinCharsSep ' ' ((pyWords s).take maxWords) ++ "...".data) []).length = maxWords
  rw [hjoin]
  rw [List.length_append, List.length_dropLast, htklen]
  have : 1 ≤ maxWords := h1
  simp
  omega

/-!
## C8 — `generate_summary` word-limit enforcement
-/

/-- Counterexample to C8 as stated: at word limit 0, a returned two-word
text is truncated to the bare ellipsis marker `"..."`, which itself counts
as one word — exceeding the limit.  So not every non-`None` summary
respects `maxWords` when `maxWords = 0`. -/
theorem generate_summary_zero_counterexample :
    generateSummary (fun _ => some "hello world") [⟨"user", "hi"⟩] 0 none = some "..." ∧
    wordCount "..." = 1 ∧ ¬ wordCount "..." ≤ 0 :=
  ⟨by decide, by decide, by decide⟩

/-- Claim C8 amended: for every positive word limit, a completion result
within the limit is returned unchanged, an over-limit result is
hard-truncated to exactly the first `maxWords` words with the ellipsis
marker appended (yielding exactly `maxWords` words), and consequently every
non-`None` summary contains at most `maxWords` words.  (At `maxWords = 0`
the appended marker itself counts as one word.) -/
theorem summary_word_limit (agent : String → Option String) (messages : List Msg)
    (maxWords : Nat) (existingSummary : Option String) (h1 : 1 ≤ maxWords) :
    (∀ s, generateSummary agent messages maxWords existingSummary = some s →
      wordCount s ≤ maxWords) ∧
    (∀ t, messages ≠ [] →
      agent (buildSummaryPrompt messages maxWords existingSummary) = some t →
      (wordCount t ≤ maxWords →
        generateSummary agent messages maxWords existingSummary = some t) ∧
      (maxWords < wordCount t →
        generateSummary agent messages maxWords existingSummary
            = some (truncateToWords t maxWords) ∧
          wordCount (truncateToWords t maxWords) = maxWords)) := by
  constructor
  · intro s hs
    by_cases hm : messages.isEmpty
    · simp [generateSummary, hm] at hs
    · have hm' : messages.isEmpty = false := by simpa using hm
      rcases hag : agent (buildSummaryPrompt messages maxWords existingSummary) with _ | t
      · simp [generateSummary, hm', hag] at hs
      · by_cases ht : t = ""
        · subst ht
          simp [generateSummary, hm', hag] at hs
          subst hs
          have h0 : wordCount "" = 0 := by decide
          omega
        · by_cases hwc : maxWords < wordCount t
          · have hcond : (t != "" && decide (maxWords < wordCount t)) = true := by
              simp [ht, hwc]
            simp [generateSummary, hm', hag, hcond] at hs
            subst hs
            exact Nat.le_of_eq (wordCount_truncate t maxWords h1 hwc)
          · have hcond : (t != "" && decide (maxWords < wordCount t)) = false := by
              simp [decide_eq_false hwc]
            simp [generateSummary, hm', hag, hcond] at hs
            subst hs
            exact Nat.not_lt.mp hwc
  · intro t hne hag
    have hm' : messages.isEmpty = false := by simpa [List.isEmpty_iff] using hne
    constructor
    · intro hle
      have hcond : (t != "" && decide (maxWords < wordCount t)) = false := by
        simp [decide_eq_false (Nat.not_lt.mpr hle)]
      simp [generateSummary, hm', hag, hcond]
    · intro hgt
      have htne : t ≠ "" := by
        intro h
        subst h
        have h0 : wordCount "" = 0 := by decide
        omega
      have hcond : (t != "" && decide (maxWords < wordCount t)) = true := by
        simp [htne, hgt]
      refine ⟨by simp [generateSummary, hm', hag, hcond], wordCount_truncate t maxWords h1 hgt⟩

/-- Witness for the amended C8: limit 2, three-word completion result. -/
theorem summary_word_limit_witness :
    generateSummary (fun _ => some "alpha beta gamma") [⟨"user", "hi"⟩] 2 none
        = some (truncateToWords "alpha beta gamma" 2) ∧
      wordCount (truncateToWords "alpha beta gamma" 2) = 2 :=
  ((summary_word_limit (fun _ => some "alpha beta gamma") [⟨"user", "hi"⟩] 2 none
      (by decide)).2 "alpha beta gamma" (by decide) rfl).2 (by decide)

/-!
## C9 — prompt-size trimming at the character budget
-/

theorem trimGo_all_fit (maxChars : Nat) :
    ∀ msgs total, total + sumJsonLen msgs ≤ maxChars → trimGo maxChars total msgs = msgs := by
  intro msgs
  induction msgs with
  | nil => intro total _; rfl
  | cons m rest ih =>
    intro total h
    have hsum : sumJsonLen (m :: rest) = (jsonDumpsMsg m).data.length + sumJsonLen rest := by
      simp [sumJsonLen]
    have hlen : ¬ maxChars < total + (jsonDumpsMsg m).data.length := by omega
    simp only [trimGo, hlen, if_false]
    rw [ih (total + (jsonDumpsMsg m).data.length) (by omega)]

theorem trimGo_boundary (maxChars : Nat) (m : Msg) (post : List Msg) :
    ∀ pre total, total + sumJsonLen pre ≤ maxChars →
      maxChars < total + sumJsonLen pre + (jsonDumpsMsg m).data.length →
      trimGo maxChars total (pre ++ m :: post) =
        pre ++ (if m.content != "" && 200 < m.content.data.length then
          [⟨m.role, pyTake 200 m.content ++ "... [trimmed]"⟩] else []) := by
  intro pre
  induction pre with
  | nil =>
    intro total h1 h2
    have hlt : maxChars < total + (jsonDumpsMsg m).data.length := by
      have : sumJsonLen [] = 0 := rfl
      omega
    simp only [List.nil_append, trimGo, hlt, if_true]
  | cons p pre2 ih =>
    intro total h1 h2
    have hsum : sumJsonLen (p :: pre2) = (jsonDumpsMsg p).data.length + sumJsonLen pre2 := by
      simp [sumJsonLen]
    have hfit : ¬ maxChars < total + (jsonDumpsMsg p).data.length := by omega
    simp only [List.cons_append, trimGo, hfit, if_false]
    exact congrArg (fun l => p :: l)
      (ih (total + (jsonDumpsMsg p).data.length) (by omega) (by omega))

/-- Counterexample to C9 as stated: two messages whose serialization exceeds
the budget of 50 characters, yet the result is the first message alone —
the message at the boundary (content of only 2 characters, not more than
200) is dropped outright and no truncation marker is appended anywhere. -/
theorem trim_boundary_drop_counterexample :
    50 < (jsonDumpsMsg c9m1).data.length + (jsonDumpsMsg c9m2).data.length ∧
    trimJsonMessages [c9m1, c9m2] 50 = [c9m1] ∧
    pyContains c9m1.content "... [trimmed]" = false :=
  ⟨by decide, by decide, by decide⟩

/-- Claim C9 amended: messages are serialized in input order and accumulated
until the character budget would be exceeded; every message before the first
overflow is kept verbatim, and the overflowing message is kept — shortened
to its first 200 characters with the marker `"... [trimmed]"` appended —
only when its content is longer than 200 characters; otherwise it is dropped
outright, as are all messages after the boundary. -/
theorem trim_messages_boundary :
    (∀ msgs maxChars, sumJsonLen msgs ≤ maxChars →
      trimJsonMessages msgs maxChars = msgs) ∧
    (∀ pre m post maxChars, sumJsonLen pre ≤ maxChars →
      maxChars < sumJsonLen pre + (jsonDumpsMsg m).data.length →
      trimJsonMessages (pre ++ m :: post) maxChars =
        pre ++ (if m.content != "" && 200 < m.content.data.length then
          [⟨m.role, pyTake 200 m.content ++ "... [trimmed]"⟩] else [])) := by
  constructor
  · intro msgs maxChars h
    exact trimGo_all_fit maxChars msgs 0 (by omega)
  · intro pre m post maxChars h1 h2
    exact trimGo_boundary maxChars m post pre 0 (by omega) (by omega)

/-- Witness for the amended C9: a single 250-character message over a
50-character budget is kept, shortened to 200 characters plus the marker. -/
theorem trim_messages_boundary_witness :
    trimJsonMessages [c9Long] 50 =
      [⟨c9Long.role, pyTake 200 c9Long.content ++ "... [trimmed]"⟩] := by
  have hc : (c9Long.content != "" && decide (200 < c9Long.content.data.length)) = true := by
    decide
  have h := trim_messages_boundary.2 [] c9Long [] 50 (by decide) (by decide)
  simpa [hc] using h

/-!
## C5 — secondary extraction of user messages
-/

/-- Counterexample to C5 as stated: a surviving user text that contains the
system-reminder closing tag but not the opening tag.  The claim mandates
that everything up through the closing tag be stripped and only the
remainder kept; the source strips only when the opening tag occurs in the
text, so here the message is emitted whole, closing tag included. -/
theorem user_query_closing_tag_counterexample :
    pyContains c5text "</system_reminder>" = true ∧
    pyContains c5text "<system_reminder>" = false ∧
    findUserQuerySpan c5text = none ∧
    extractMessages [("b1", .dict ⟨some "user", some (.str c5text)⟩)] = [⟨"user", c5text⟩] ∧
    c5text ≠ "please fix the login bug in auth.py" :=
  ⟨by decide, by decide, by decide, by decide, by decide⟩

/-- Claim C5 amended: for a user message surviving the primary filters — if
the text contains a user-query tagged span, the extraction is exactly that
span's trimmed text; if no span exists and the trimmed text begins with a
metadata-wrapper tag, the extraction is empty (message dropped); if no span
exists, no metadata tag leads, and the system-reminder opening tag occurs in
the text, then when the closing tag is also present everything up through
the last closing tag is dropped and only the trimmed remainder kept (empty
when nothing remains), and when no closing tag is present the text is kept
unchanged.  The 10-character minimum is re-applied to the extraction: a
short or empty extraction drops the message, and otherwise the message is
emitted with the extraction (truncated to 2000 characters) as content. -/
theorem user_query_extraction_rules (text : String) :
    (∀ inner, findUserQuerySpan text = some inner → extractUserQuery text = pyStrip inner) ∧
    (findUserQuerySpan text = none →
      (metadataTags.any (fun tag => pyStartsWith (pyStrip text) tag)) = true →
      extractUserQuery text = "") ∧
    (findUserQuerySpan text = none →
      (metadataTags.any (fun tag => pyStartsWith (pyStrip text) tag)) = false →
      pyContains text "<system_reminder>" = true →
      (∀ rest, afterLastSub "</system_reminder>".data text.data = some rest →
        extractUserQuery text = (if pyStrip ⟨rest⟩ = "" then "" else pyStrip ⟨rest⟩)) ∧
      (afterLastSub "</system_reminder>".data text.data = none →
        extractUserQuery text = text)) ∧
    (∀ bid : String, ∀ tail : List (String × BlobData),
      10 ≤ (pyStrip text).data.length →
      (extractUserQuery text = "" ∨ (pyStrip (extractUserQuery text)).data.length < 10) →
      extractMessages ((bid, .dict ⟨some "user", some (.str text)⟩) :: tail)
        = extractMessages tail) ∧
    (∀ bid : String, ∀ tail : List (String × BlobData),
      10 ≤ (pyStrip text).data.length →
      10 ≤ (pyStrip (extractUserQuery text)).data.length →
      isMostlyMetadata (extractUserQuery text) = false →
      extractMessages ((bid, .dict ⟨some "user", some (.str text)⟩) :: tail)
        = ⟨"user", pyTake 2000 (extractUserQuery text)⟩ :: extractMessages tail) := by
  have hstripnil : (pyStrip "").data.length = 0 := by decide
  refine ⟨?_, ?_, ?_, ?_, ?_⟩
  · intro inner h
    simp [extractUserQuery, h]
  · intro h1 h2
    simp [extractUserQuery, h1, h2]
  · intro h1 h2 h3
    constructor
    · intro rest hr
      simp only [extractUserQuery, h1, h2, Bool.false_eq_true, if_false, h3, if_true, hr]
      split
      · rename_i hemp
        simp [beq_iff_eq.1 hemp]
      · rename_i hemp
        rw [if_neg (by simpa using hemp)]
    · intro hr
      simp [extractUserQuery, h1, h2, h3, hr]
  · intro bid tail h10 hshort
    have htne : text ≠ "" := by
      intro h
      subst h
      omega
    have ht' : ¬ (pyStrip text).length < 10 := Nat.not_lt.mpr h10
    have hu' : extractUserQuery text = "" ∨ (pyStrip (extractUserQuery text)).length < 10 := by
      rcases hshort with h | h
      · exact Or.inl h
      · exact Or.inr h
    simp [extractMessages, processBlob, contentTruthy, extractTextContent, htne, ht', hu']
  · intro bid tail h10 hmeta hmost
    have htne : text ≠ "" := by
      intro h
      subst h
      omega
    have hune : extractUserQuery text ≠ "" := by
      intro h
      rw [h] at hmeta
      omega
    have ht' : ¬ (pyStrip text).length < 10 := Nat.not_lt.mpr h10
    have hu' : ¬ (extractUserQuery text = ""
        ∨ (pyStrip (extractUserQuery text)).length < 10) := by
      rintro (h | h)
      · exact hune h
      · exact absurd h (Nat.not_lt.mpr hmeta)
    simp [extractMessages, processBlob, contentTruthy, extractTextContent, msgOfText,
      htne, ht', hu', hmost]

/-- Witness for the amended C5: a span is extracted and trimmed; a
system-reminder remainder of sufficient length is emitted as the message
content. -/
theorem user_query_extraction_rules_witness :
    extractUserQuery c5spanText = pyStrip "  Fix the login bug in auth.py  " ∧
    extractMessages [("b1", .dict ⟨some "user", some (.str c5keptText)⟩)]
      = ⟨"user", pyTake 2000 (extractUserQuery c5keptText)⟩ :: extractMessages [] :=
  ⟨(user_query_extraction_rules c5spanText).1 _ (by decide),
   (user_query_extraction_rules c5keptText).2.2.2.2 "b1" []
     (by decide) (by decide) (by decide)⟩

end Curlens
